import Mathlib

/-!
Verification of the snow MPM solver core (`lib/SnowSolver.cpp`).

The C++ solver advances particles through grid transfer, force computation,
integration, collision and a particle update.  Doubles are modelled as real
numbers; `glm::dvec3` becomes `Fin 3 → ℝ`, `glm::dmat3` becomes
`Matrix (Fin 3) (Fin 3) ℝ` (glm stores matrices column-major but its `*`,
`transpose`, `determinant`, `inverse` are the mathematical operations),
and the `int` casts of window bounds become truncation toward zero.
The Eigen Jacobi SVD called by `svd` is external numerical code, so steps
that consume an SVD are embedded as functions of the returned triple
`(u, e, v)`, with the SVD contract (orthogonal factors, nonnegative
singular values) as explicit hypotheses.
-/

namespace SnowVerify

open scoped Matrix BigOperators

/-- The C++ `double → int` conversion of the `glm::ivec3` casts on lines
122–123: truncation toward zero. -/
def truncQ (q : ℚ) : ℤ := if 0 ≤ q then ⌊q⌋ else ⌈q⌉

/-- Modelled from the spec: `isValidGridNode` is declared in `SnowSolver.h`,
which is not among the repository files; per the spec, nodes outside
`[0, N−1]` in any axis are invalid. -/
def isValidGridNode (size g : ℤ × ℤ × ℤ) : Bool :=
  decide (0 ≤ g.1 ∧ g.1 < size.1 ∧ 0 ≤ g.2.1 ∧ g.2.1 < size.2.1 ∧
    0 ≤ g.2.2 ∧ g.2.2 < size.2.2)

/-- The integers from `lo` to `hi` inclusive (a C++ `for (g = lo; g <= hi; g++)`). -/
def intRange (lo hi : ℤ) : List ℤ := (List.range (hi + 1 - lo).toNat).map (fun k => lo + k)

/-- Lines 122–131: the grid nodes the step-2 density gather visits for a
particle at `position`: all `(gx, gy, gz)` with `gmin ≤ g ≤ gmax`, where
`gmin = ivec3(p/h − 1)` and `gmax = ivec3(p/h + 2)`.  No validity check is
performed before `this->gridNode(gx, gy, gz)` is read. -/
def step2VisitedNodes (position : ℚ × ℚ × ℚ) (h : ℚ) : List (ℤ × ℤ × ℤ) :=
  (intRange (truncQ (position.1 / h - 1)) (truncQ (position.1 / h + 2))).flatMap fun gx =>
    (intRange (truncQ (position.2.1 / h - 1)) (truncQ (position.2.1 / h + 2))).flatMap fun gy =>
      (intRange (truncQ (position.2.2 / h - 1)) (truncQ (position.2.2 / h + 2))).map fun gz =>
        (gx, gy, gz)

noncomputable section

/-- 3-vectors, standing for `glm::dvec3`; `v i` is component `i`. -/
abbrev Vec3 := Fin 3 → ℝ

/-- 3×3 real matrices, standing for `glm::dmat3`. -/
abbrev Mat3 := Matrix (Fin 3) (Fin 3) ℝ

/-- `glm::length` on a `dvec3`: the Euclidean norm. -/
def glmLength (v : Vec3) : ℝ := Real.sqrt (v 0 ^ 2 + v 1 ^ 2 + v 2 ^ 2)

/-- `glm::dot` on `dvec3`. -/
def glmDot (a b : Vec3) : ℝ := a 0 * b 0 + a 1 * b 1 + a 2 * b 2

/-- `glm::normalize` on `dvec3`: the vector divided by its length. -/
def glmNormalize (v : Vec3) : Vec3 := fun i => v i / glmLength v

/-! ### Step 1 — P2G velocity normalization (SnowSolver.cpp lines 95–101)

After accumulating `m_g += m_p·w` and `(m·v)_g += m_p·v_p·w`, the solver
replaces each node's accumulated momentum by a velocity:
`if (glm::length(v) > 0 && mass > 0) v /= mass; else v = {};`. -/

/-- Lines 95–101 of `SnowSolver.cpp`, for one grid node: `velocity` holds the
accumulated momentum, `mass` the accumulated mass. -/
def gridVelocityNormalize (velocity : Vec3) (mass : ℝ) : Vec3 :=
  if 0 < glmLength velocity ∧ 0 < mass then (fun i => velocity i / mass) else 0

/-! ### Step 6 — the linear solve (SnowSolver.cpp lines 200–216)

`velocity_star` is copied into `velocity_star` and `velocity_next` arrays,
the conjugate-residual call is commented out (`// TODO: Enable semi-implicit
solver`), and `velocity_next` is written back as the velocity at time `n+1`. -/

/-- Lines 202–208: the `velocity_star` array, copied from the grid nodes. -/
def step6VelocityStarArray {ι : Type} (velocity_star : ι → Vec3) : ι → Vec3 :=
  fun i => velocity_star i

/-- Lines 203–212: the `velocity_next` array; initialized from
`velocity_star`, and the conjugate-residual solve on it is commented out. -/
def step6VelocityNext {ι : Type} (velocity_star : ι → Vec3) : ι → Vec3 :=
  fun i => step6VelocityStarArray velocity_star i

/-- Lines 214–216: each node's velocity at time `n + 1` is assigned from
`velocity_next`. -/
def step6GridVelocityNp1 {ι : Type} (velocity_star : ι → Vec3) : ι → Vec3 :=
  fun i => step6VelocityNext velocity_star i

/-! ### The collision handler (SnowSolver.cpp lines 305–336)

`handleNodeCollisionVelocityUpdate` projects `velocity_star` against the
hard-coded floor at `z = 0.1` with normal `(0,0,1)`, collider velocity `0`
and friction coefficient `1`. -/

/-- Lines 305–336 of `SnowSolver.cpp`: the collision handler, as a function
of the node's `position.z` and its `velocity_star`. -/
def handleNodeCollisionVelocityUpdate (positionZ : ℝ) (velocity_star : Vec3) : Vec3 :=
  if positionZ ≤ 0.1 then
    -- v_co: velocity of collider object; nrm: the normal n; mu: friction
    let v_co : Vec3 := 0
    let nrm : Vec3 := ![0, 0, 1]
    let mu : ℝ := 1
    let v_rel := velocity_star - v_co
    let v_n := glmDot v_rel nrm
    if 0 ≤ v_n then
      -- no collision: return with velocity_star unchanged
      velocity_star
    else
      let v_t := v_rel - v_n • nrm
      let v_rel2 : Vec3 :=
        if glmLength v_t ≤ -mu * v_n then 0
        else v_t + (mu * v_n) • glmNormalize v_t
      v_rel2 + v_co
  else velocity_star

/-! ### Step 7 — deformation-gradient update (SnowSolver.cpp lines 225–262)

`svd(deformElastic_prime, u, e, v)` calls the external Eigen Jacobi SVD, so
the update is embedded as a function of the returned triple `(u, e, v)`;
the SVD contract (`uᵀu = 1`, `vᵀv = 1`, `e ≥ 0`) enters as hypotheses. -/

/-- glm's diagonal constructor `glm::dmat3(a, 0, 0, 0, b, 0, 0, 0, c)`
(column-major entries of a diagonal matrix). -/
def dmat3Diagonal (e : Fin 3 → ℝ) : Mat3 := Matrix.diagonal e

/-- Line 258: `e = glm::clamp(e, 1 - criticalCompression, 1 + criticalStretch)`
componentwise; `glm::clamp x lo hi = min (max x lo) hi`. -/
def clampSingularValues (e : Fin 3 → ℝ) (criticalCompression criticalStretch : ℝ) :
    Fin 3 → ℝ :=
  fun i => min (max (e i) (1 - criticalCompression)) (1 + criticalStretch)

/-- Line 249: `multiplier = glm::dmat3(1) + delta_t * nabla_v`. -/
def step7Multiplier (delta_t : ℝ) (nabla_v : Mat3) : Mat3 := 1 + delta_t • nabla_v

/-- Lines 229 and 251: `deform_prime = multiplier * (deformElastic * deformPlastic)`. -/
def step7DeformPrime (delta_t : ℝ) (nabla_v deformElastic deformPlastic : Mat3) : Mat3 :=
  step7Multiplier delta_t nabla_v * (deformElastic * deformPlastic)

/-- Line 260: the updated `deformElastic = u * diag(clamped e) * vᵀ`. -/
def step7DeformElastic (u : Mat3) (e : Fin 3 → ℝ) (v : Mat3)
    (criticalCompression criticalStretch : ℝ) : Mat3 :=
  u * dmat3Diagonal (clampSingularValues e criticalCompression criticalStretch) * vᵀ

/-- Lines 261–262: the updated
`deformPlastic = v * diag(1 / clamped e) * uᵀ * deform_prime`. -/
def step7DeformPlastic (u : Mat3) (e : Fin 3 → ℝ) (v : Mat3)
    (criticalCompression criticalStretch : ℝ) (deform_prime : Mat3) : Mat3 :=
  v * dmat3Diagonal (fun i => 1 / clampSingularValues e criticalCompression criticalStretch i) *
    uᵀ * deform_prime

/-- A singular value of `M`: a nonnegative `σ` with `σ²` an eigenvalue of
`MᵀM`, i.e. `det (MᵀM − σ²·I) = 0`. -/
def IsSingularValue (M : Mat3) (σ : ℝ) : Prop :=
  0 ≤ σ ∧ (Mᵀ * M - σ ^ 2 • (1 : Mat3)).det = 0

/-! ### Step 2 — the initialization-tick density gather (SnowSolver.cpp lines 105–140)

Executed only when `n == 0`.  The per-particle window loop of lines 124–131
reads `this->gridNode(gx, gy, gz)` directly, without the
`if (!isValidGridNode(gx, gy, gz)) continue;` guard that every other window
loop in the file has (lines 79, 174, 239, 273, 380, 479).  The loop bounds
are modelled over ℚ with the C++ `double → int` truncation toward zero. -/

/-! ### The implicit operator (SnowSolver.cpp lines 344–499)

`implicitVelocityIntegrationMatrix` is the linear operator of the
(disabled) conjugate-residual solve.  Lines 348–350 read
`// FIXME: Hardcoded here for now / double delta_t = 5e-3; / double beta = 1;`:
the operator never receives the solver's current `delta_t`.  The force
differential `del_f` accumulated on lines 356–488 (itself scaled by the same
hardcoded `delta_t` on line 390) is taken as an input to the final
combination, which is embedded verbatim. -/

/-- Line 349: `double delta_t = 5e-3;` — the hardcoded step inside
`implicitVelocityIntegrationMatrix`, under the line-348 FIXME comment. -/
def implicitHardcodedDeltaT : ℝ := 5e-3

/-- Line 350: `double beta = 1;`. -/
def implicitHardcodedBeta : ℝ := 1

/-- Lines 492–497 of `implicitVelocityIntegrationMatrix`:
`Av_next[i] = v_next[i]`, then for every node with positive mass
`Av_next[i] -= beta * delta_t * del_f[i] / gridNodes[i].mass`, with the
hardcoded `delta_t` and `beta`. -/
def implicitVelocityIntegrationMatrixCombine {ι : Type} (mass : ι → ℝ)
    (del_f v_next : ι → Vec3) : ι → Vec3 :=
  fun i =>
    if 0 < mass i then
      fun k => v_next i k - implicitHardcodedBeta * implicitHardcodedDeltaT * del_f i k / mass i
    else v_next i

/-- The operator the claim (and §4.7 of the spec) states:
`A·v = v − (β·Δt/m_g)·δf(v)` at the solver's current `Δt`, for nodes with
positive mass. -/
def specImplicitOperator {ι : Type} (beta delta_t : ℝ) (mass : ι → ℝ)
    (del_f v : ι → Vec3) : ι → Vec3 :=
  fun i =>
    if 0 < mass i then fun k => v i k - beta * delta_t / mass i * del_f i k
    else v i

/-! ### Particles, interpolation windows and weights

The per-particle fields used by steps 1 and 3.  `weight` and
`isValidGridNode` are declared in `SnowSolver.h`, which is not among the
repository files, so they are modelled from the spec (§4.1, §3). -/

/-- The particle fields of `ParticleNode` that steps 1 and 3 read. -/
structure ParticleNode where
  position : Vec3
  mass : ℝ
  volume0 : ℝ
  deformElastic : Mat3
  deformPlastic : Mat3

/-- The C++ `double → int` conversion (`glm::ivec3` cast): truncation toward
zero, as on lines 74–75, 122–123, 169–170, 234–235. -/
def truncR (x : ℝ) : ℤ := if 0 ≤ x then ⌊x⌋ else ⌈x⌉

/-- The 4³ window loop bounds of lines 74–75 (and their copies): node `g`
is visited for the particle at `p` iff `ivec3(p/h − 1) ≤ g ≤ ivec3(p/h + 2)`
componentwise. -/
def windowNode (h : ℝ) (p : Vec3) (g : ℤ × ℤ × ℤ) : Prop :=
  truncR (p 0 / h - 1) ≤ g.1 ∧ g.1 ≤ truncR (p 0 / h + 2) ∧
    truncR (p 1 / h - 1) ≤ g.2.1 ∧ g.2.1 ≤ truncR (p 1 / h + 2) ∧
    truncR (p 2 / h - 1) ≤ g.2.2 ∧ g.2.2 ≤ truncR (p 2 / h + 2)

instance (h : ℝ) (p : Vec3) (g : ℤ × ℤ × ℤ) : Decidable (windowNode h p g) := by
  unfold windowNode
  infer_instance

/-- Modelled from the spec: the 1-D cubic B-spline `N(x)` of §4.1 (the `n`
helper lives in the missing `SnowSolver.h`). -/
def nSpline (x : ℝ) : ℝ :=
  if |x| < 1 then |x| ^ 3 / 2 - x ^ 2 + 2 / 3
  else if |x| < 2 then -|x| ^ 3 / 6 + x ^ 2 - 2 * |x| + 4 / 3
  else 0

/-- Modelled from the spec: the 3-D weight `w(gp) = N(dx)·N(dy)·N(dz)` with
`d* = (p* − g*·h)/h` (§4.1; the `weight` helper lives in the missing
`SnowSolver.h`; a grid node's position is `h · location`). -/
def weight (h : ℝ) (p : Vec3) (g : ℤ × ℤ × ℤ) : ℝ :=
  nSpline ((p 0 - g.1 * h) / h) * nSpline ((p 1 - g.2.1 * h) / h) *
    nSpline ((p 2 - g.2.2 * h) / h)

/-! ### Step 3 — stress → nodal force (SnowSolver.cpp lines 150–183) -/

/-- Lines 154–166: the per-particle matrix
`-volume0 * (2μ(F_E − polarRot F_E)·F_Eᵀ + dmat3(λ(J_E−1)·J_E))`, with the
hardening of lines 156–161 (`jp`, `je`, `e`, `mu`, `lambda`).  `polarRot`
(lines 40–46, an SVD wrapper over external Eigen code) is a function
parameter; `glm::dmat3 s` of a scalar is `s • I`. -/
def unweightedForce (polarRot : Mat3 → Mat3) (mu0 lambda0 hardeningCoefficient : ℝ)
    (p : ParticleNode) : Mat3 :=
  let jp := p.deformPlastic.det
  let je := p.deformElastic.det
  let e := Real.exp (hardeningCoefficient * (1 - jp))
  let mu := mu0 * e
  let lambda := lambda0 * e
  (-p.volume0) •
    ((2 * mu) • ((p.deformElastic - polarRot p.deformElastic) * p.deformElasticᵀ) +
      (lambda * (je - 1) * je) • (1 : Mat3))

/-- Lines 150–152: every node's force is initialized to `(0, 0, −9.8·m_g)`. -/
def gridForceInit (massAt : ℤ × ℤ × ℤ → ℝ) (g : ℤ × ℤ × ℤ) : Vec3 :=
  ![0, 0, -9.8 * massAt g]

/-- Lines 150–183: the force at node `g` after step 3: gravity plus, for
every particle whose window contains the valid node `g`, the contribution
`unweightedForce * nabla_weight(g, p)`.  The weight gradient (missing
`SnowSolver.h`) is a function parameter shared with the spec-side
definition. -/
def gridForce (polarRot : Mat3 → Mat3) (nabla_weight : Vec3 → ℤ × ℤ × ℤ → Vec3)
    (mu0 lambda0 hardeningCoefficient h : ℝ) (size : ℤ × ℤ × ℤ)
    {np : ℕ} (particleNodes : Fin np → ParticleNode)
    (massAt : ℤ × ℤ × ℤ → ℝ) (g : ℤ × ℤ × ℤ) : Vec3 :=
  gridForceInit massAt g +
    ∑ i : Fin np,
      if isValidGridNode size g = true ∧ windowNode h (particleNodes i).position g then
        (unweightedForce polarRot mu0 lambda0 hardeningCoefficient (particleNodes i)).mulVec
          (nabla_weight (particleNodes i).position g)
      else 0

/-- The spec's stress (§4.5): `e = exp(ξ·(1−J_P))`, `μ = μ0·e`, `λ = λ0·e`,
`P = 2μ·(F_E − R_E)·F_Eᵀ + λ·(J_E−1)·J_E·I` with `R_E = polarRot(F_E)`. -/
def specStress (polarRot : Mat3 → Mat3) (mu0 lambda0 xi : ℝ) (p : ParticleNode) : Mat3 :=
  let e := Real.exp (xi * (1 - p.deformPlastic.det))
  (2 * (mu0 * e)) • ((p.deformElastic - polarRot p.deformElastic) * p.deformElasticᵀ) +
    ((lambda0 * e) * (p.deformElastic.det - 1) * p.deformElastic.det) • (1 : Mat3)

/-- The spec's force stage (§4.5): `f_g = (0, 0, −9.8·m_g)` minus
`Σ_p volume0·P·∇w(g, p)` over the valid window nodes. -/
def specGridForce (polarRot : Mat3 → Mat3) (nabla_weight : Vec3 → ℤ × ℤ × ℤ → Vec3)
    (mu0 lambda0 xi h : ℝ) (size : ℤ × ℤ × ℤ)
    {np : ℕ} (particleNodes : Fin np → ParticleNode)
    (massAt : ℤ × ℤ × ℤ → ℝ) (g : ℤ × ℤ × ℤ) : Vec3 :=
  ![0, 0, -9.8 * massAt g] -
    ∑ i : Fin np,
      if isValidGridNode size g = true ∧ windowNode h (particleNodes i).position g then
        (particleNodes i).volume0 •
          (specStress polarRot mu0 lambda0 xi (particleNodes i)).mulVec
            (nabla_weight (particleNodes i).position g)
      else 0

/-! ### Step 1 — P2G mass rasterization (SnowSolver.cpp lines 64–93)

Each particle adds `m_p · w(g, p)` to every valid node of its 4³ window;
`totalGridNodeMass` accumulates the same contributions. -/

/-- Lines 64–93: the accumulated mass of node `g` after the P2G loop. -/
def gridMass (h : ℝ) (size : ℤ × ℤ × ℤ) {np : ℕ} (particleNodes : Fin np → ParticleNode)
    (g : ℤ × ℤ × ℤ) : ℝ :=
  ∑ i : Fin np,
    if isValidGridNode size g = true ∧ windowNode h (particleNodes i).position g then
      (particleNodes i).mass * weight h (particleNodes i).position g
    else 0

/-- The grid's node set: integer coordinates in `[0, N−1]` per axis (the
nodes the constructor on lines 16–22 creates). -/
def gridFinset (size : ℤ × ℤ × ℤ) : Finset (ℤ × ℤ × ℤ) :=
  Finset.Icc 0 (size.1 - 1) ×ˢ (Finset.Icc 0 (size.2.1 - 1) ×ˢ Finset.Icc 0 (size.2.2 - 1))

/-- `Σ_g m_g` over the whole grid after the step-1 rasterization. -/
def totalGridMass (h : ℝ) (size : ℤ × ℤ × ℤ) {np : ℕ}
    (particleNodes : Fin np → ParticleNode) : ℝ :=
  ∑ g ∈ gridFinset size, gridMass h size particleNodes g

/-- A concrete one-particle scene for the C9 witness: `h = 1`, grid `4³`,
particle at `(1.5, 1.5, 1.5)` with mass 1. -/
def witnessParticle : ParticleNode :=
  { position := ![3 / 2, 3 / 2, 3 / 2], mass := 1, volume0 := 1,
    deformElastic := 1, deformPlastic := 1 }

end

lemma glmLength_nonneg (v : Vec3) : 0 ≤ glmLength v := Real.sqrt_nonneg _

lemma glmLength_pos_iff (v : Vec3) : 0 < glmLength v ↔ v ≠ 0 := by
  unfold glmLength
  rw [Real.sqrt_pos]
  constructor
  · intro h hv
    rw [hv] at h
    simp at h
  · intro hv
    rcases lt_or_eq_of_le (by positivity : (0:ℝ) ≤ v 0 ^ 2 + v 1 ^ 2 + v 2 ^ 2) with h | h
    · exact h
    · exfalso
      apply hv
      have h0 : v 0 = 0 := by nlinarith [sq_nonneg (v 0), sq_nonneg (v 1), sq_nonneg (v 2)]
      have h1 : v 1 = 0 := by nlinarith [sq_nonneg (v 0), sq_nonneg (v 1), sq_nonneg (v 2)]
      have h2 : v 2 = 0 := by nlinarith [sq_nonneg (v 0), sq_nonneg (v 1), sq_nonneg (v 2)]
      funext i
      fin_cases i <;> simpa

/-- C4: after the step-1 normalization, a node with positive accumulated mass
carries velocity `momentum / mass` (in particular zero momentum gives zero
velocity), and a node without positive mass carries the zero vector. -/
theorem gridVelocityNormalize_spec (velocity : Vec3) (mass : ℝ) :
    (0 < mass → gridVelocityNormalize velocity mass = fun i => velocity i / mass) ∧
    (¬ 0 < mass → gridVelocityNormalize velocity mass = 0) := by
  constructor
  · intro hm
    unfold gridVelocityNormalize
    by_cases hv : 0 < glmLength velocity
    · rw [if_pos ⟨hv, hm⟩]
    · rw [if_neg (by tauto)]
      have hv0 : velocity = 0 := by
        by_contra hne
        exact hv ((glmLength_pos_iff velocity).mpr hne)
      funext i
      simp [hv0]
  · intro hm
    unfold gridVelocityNormalize
    rw [if_neg (by tauto)]

/-- Witness for C4 at a concrete node: momentum `(2, 0, 4)`, mass `2`. -/
theorem gridVelocityNormalize_spec_witness :
    gridVelocityNormalize ![2, 0, 4] 2 = (fun i => (![2, 0, 4] : Vec3) i / 2) :=
  (gridVelocityNormalize_spec ![2, 0, 4] 2).1 (by norm_num)

/-- C6: with the implicit path disabled as shipped, step 6 sets every node's
velocity at time `n+1` exactly equal to its post-collision `velocity_star`. -/
theorem step6_velocity_np1_eq_star {ι : Type} (velocity_star : ι → Vec3) (i : ι) :
    step6GridVelocityNp1 velocity_star i = velocity_star i := rfl

lemma glmDot_floor_normal (v : Vec3) : glmDot v ![0, 0, 1] = v 2 := by
  simp [glmDot]

/-- C7: on a node in contact with the floor (`position.z ≤ 0.1`), the handler
returns the velocity unchanged when `v_n = v_rel·n ≥ 0`; sets it to the
collider velocity `0` (stick) when `v_n < 0` and `|v_t| ≤ −μ_f·v_n`; and
returns `v_t + μ_f·v_n·(v_t/|v_t|) + v_co` (slide) otherwise, with `μ_f = 1`,
`n = (0,0,1)`, `v_co = 0`, `v_rel = v* − v_co` and `v_t = v_rel − n·v_n`. -/
theorem handleNodeCollision_cases (positionZ : ℝ) (v : Vec3) (hz : positionZ ≤ 0.1) :
    (0 ≤ glmDot v ![0, 0, 1] →
      handleNodeCollisionVelocityUpdate positionZ v = v) ∧
    (glmDot v ![0, 0, 1] < 0 →
      glmLength (v - glmDot v ![0, 0, 1] • ![0, 0, 1]) ≤ -(1 * glmDot v ![0, 0, 1]) →
      handleNodeCollisionVelocityUpdate positionZ v = 0) ∧
    (glmDot v ![0, 0, 1] < 0 →
      ¬ glmLength (v - glmDot v ![0, 0, 1] • ![0, 0, 1]) ≤ -(1 * glmDot v ![0, 0, 1]) →
      handleNodeCollisionVelocityUpdate positionZ v =
        (v - glmDot v ![0, 0, 1] • ![0, 0, 1]) +
          (1 * glmDot v ![0, 0, 1]) •
            glmNormalize (v - glmDot v ![0, 0, 1] • ![0, 0, 1]) + 0) := by
  refine ⟨?_, ?_, ?_⟩
  · intro hn
    unfold handleNodeCollisionVelocityUpdate
    rw [if_pos hz]
    simp only [sub_zero]
    rw [if_pos hn]
  · intro hn hstick
    unfold handleNodeCollisionVelocityUpdate
    rw [if_pos hz]
    simp only [sub_zero, neg_mul]
    rw [if_neg (not_le.mpr hn)]
    rw [if_pos hstick]
    simp
  · intro hn hslide
    unfold handleNodeCollisionVelocityUpdate
    rw [if_pos hz]
    simp only [sub_zero, neg_mul]
    rw [if_neg (not_le.mpr hn)]
    rw [if_neg hslide]

/-- Witness for C7 at a concrete node: `z = 0`, upward velocity `(0,0,1)` is
returned unchanged. -/
theorem handleNodeCollision_cases_witness :
    handleNodeCollisionVelocityUpdate 0 ![0, 0, 1] = ![0, 0, 1] :=
  (handleNodeCollision_cases 0 ![0, 0, 1] (by norm_num)).1
    (by rw [glmDot_floor_normal]; norm_num)

lemma handler_of_z_nonneg (positionZ : ℝ) (v : Vec3) (hn : 0 ≤ v 2) :
    handleNodeCollisionVelocityUpdate positionZ v = v := by
  unfold handleNodeCollisionVelocityUpdate
  by_cases hz : positionZ ≤ 0.1
  · rw [if_pos hz]
    simp only [sub_zero]
    rw [if_pos (by rw [glmDot_floor_normal]; exact hn)]
  · rw [if_neg hz]

lemma handler_result_z (positionZ : ℝ) (v : Vec3) :
    handleNodeCollisionVelocityUpdate positionZ v = v ∨
      0 ≤ handleNodeCollisionVelocityUpdate positionZ v 2 := by
  unfold handleNodeCollisionVelocityUpdate
  by_cases hz : positionZ ≤ 0.1
  · rw [if_pos hz]
    simp only [sub_zero]
    by_cases hn : 0 ≤ glmDot v ![0, 0, 1]
    · rw [if_pos hn]
      left
      rfl
    · rw [if_neg hn]
      right
      by_cases hs :
          glmLength (v - glmDot v ![0, 0, 1] • ![0, 0, 1]) ≤ -1 * glmDot v ![0, 0, 1]
      · rw [if_pos hs]
        norm_num
      · rw [if_neg hs]
        set w : Vec3 := v - glmDot v ![0, 0, 1] • ![0, 0, 1] with hw
        have e0 : (![0, 0, 1] : Vec3) 0 = 0 := rfl
        have e1 : (![0, 0, 1] : Vec3) 1 = 0 := rfl
        have e2 : (![0, 0, 1] : Vec3) 2 = 1 := rfl
        have hw2 : w 2 = 0 := by
          rw [hw]
          simp only [Pi.sub_apply, Pi.smul_apply, smul_eq_mul, glmDot, e0, e1, e2]
          ring
        simp only [Pi.add_apply, Pi.smul_apply, Pi.zero_apply, add_zero,
          glmNormalize, smul_eq_mul, hw2]
        norm_num
  · rw [if_neg hz]
    left
    rfl

/-- C8: the collision handler is idempotent: for every node position and
input velocity, applying `handleNodeCollisionVelocityUpdate` twice yields the
same velocity as applying it once. -/
theorem handleNodeCollision_idempotent (positionZ : ℝ) (v : Vec3) :
    handleNodeCollisionVelocityUpdate positionZ (handleNodeCollisionVelocityUpdate positionZ v)
      = handleNodeCollisionVelocityUpdate positionZ v := by
  rcases handler_result_z positionZ v with h | h
  · simp only [h]
  · exact handler_of_z_nonneg positionZ _ h

lemma det_gram_of_orthogonal (u v : Mat3) (d : Fin 3 → ℝ)
    (hu : uᵀ * u = 1) (hv : vᵀ * v = 1) (σ : ℝ) :
    ((u * Matrix.diagonal d * vᵀ)ᵀ * (u * Matrix.diagonal d * vᵀ) - σ ^ 2 • (1 : Mat3)).det
      = ∏ i, (d i ^ 2 - σ ^ 2) := by
  have hvv : v * vᵀ = 1 := Matrix.mul_eq_one_comm.mp hv
  have hMtM : (u * Matrix.diagonal d * vᵀ)ᵀ * (u * Matrix.diagonal d * vᵀ)
      = v * (Matrix.diagonal fun i => d i * d i) * vᵀ := by
    rw [Matrix.transpose_mul, Matrix.transpose_mul, Matrix.transpose_transpose,
      Matrix.diagonal_transpose]
    simp only [Matrix.mul_assoc]
    rw [← Matrix.mul_assoc uᵀ u, hu, Matrix.one_mul,
      ← Matrix.mul_assoc (Matrix.diagonal d) (Matrix.diagonal d),
      Matrix.diagonal_mul_diagonal]
  have hsmul : σ ^ 2 • (1 : Mat3) = v * (σ ^ 2 • (1 : Mat3)) * vᵀ := by
    rw [Matrix.mul_smul, Matrix.mul_one, Matrix.smul_mul, hvv]
  rw [hMtM, hsmul, ← Matrix.sub_mul, ← Matrix.mul_sub, Matrix.det_mul, Matrix.det_mul,
    Matrix.det_transpose]
  have hdetv : v.det * v.det = 1 := by
    have := congrArg Matrix.det hvv
    rwa [Matrix.det_mul, Matrix.det_transpose, Matrix.det_one] at this
  have hsub : (Matrix.diagonal fun i => d i * d i) - σ ^ 2 • (1 : Mat3)
      = Matrix.diagonal fun i => d i ^ 2 - σ ^ 2 := by
    rw [← Matrix.diagonal_one, ← Matrix.diagonal_smul, Matrix.diagonal_sub]
    funext i
    simp only [Pi.smul_apply, smul_eq_mul, mul_one, sq]
  rw [hsub, Matrix.det_diagonal, mul_right_comm, hdetv, one_mul]

lemma clampSingularValues_mem (e : Fin 3 → ℝ) (θc θs : ℝ) (h : 1 - θc ≤ 1 + θs) (i : Fin 3) :
    1 - θc ≤ clampSingularValues e θc θs i ∧ clampSingularValues e θc θs i ≤ 1 + θs := by
  unfold clampSingularValues
  exact ⟨le_min (le_max_right _ _) h, min_le_right _ _⟩

/-- C1: after step 7 (the deformation-gradient update with SVD output
`(u, e, v)` of `deformElastic_prime`, `u` and `v` orthogonal), every singular
value of the particle's updated `deformElastic` lies in the closed interval
`[1 − θ_c, 1 + θ_s]`, provided `θ_c ≤ 1` (so the interval sits in `[0, ∞)`)
and the interval is nonempty.  The statement is parametric in all per-tick
data, so it holds after every tick. -/
theorem step7_singularValues_in_range
    (u : Mat3) (e : Fin 3 → ℝ) (v : Mat3) (θc θs : ℝ)
    (hu : uᵀ * u = 1) (hv : vᵀ * v = 1)
    (hθc : θc ≤ 1) (hθ : 1 - θc ≤ 1 + θs)
    (σ : ℝ) (hσ : IsSingularValue (step7DeformElastic u e v θc θs) σ) :
    1 - θc ≤ σ ∧ σ ≤ 1 + θs := by
  obtain ⟨hσ0, hdet⟩ := hσ
  rw [step7DeformElastic, dmat3Diagonal, det_gram_of_orthogonal u v _ hu hv σ] at hdet
  rw [Fin.prod_univ_three] at hdet
  have hzero : ∃ i, clampSingularValues e θc θs i ^ 2 = σ ^ 2 := by
    rcases mul_eq_zero.mp hdet with h12 | h3
    · rcases mul_eq_zero.mp h12 with h1 | h2
      · exact ⟨0, by linarith [sub_eq_zero.mp h1]⟩
      · exact ⟨1, by linarith [sub_eq_zero.mp h2]⟩
    · exact ⟨2, by linarith [sub_eq_zero.mp h3]⟩
  obtain ⟨i, hsq⟩ := hzero
  obtain ⟨hlo, hhi⟩ := clampSingularValues_mem e θc θs hθ i
  have hlo0 : (0 : ℝ) ≤ 1 - θc := by linarith
  constructor
  · nlinarith [hsq, hσ0, hlo, hhi, hlo0]
  · nlinarith [hsq, hσ0, hlo, hhi, hlo0]

/-- Witness for C1: identity `u`, `v`, singular values `(2, 1/4, 1)`,
`θ_c = θ_s = 1/2`; `σ = 3/2` is a singular value of the clamped matrix and
lies in `[1/2, 3/2]`. -/
theorem step7_singularValues_in_range_witness :
    ((1 : Mat3)ᵀ * 1 = 1) ∧ ((1 : ℝ) / 2 ≤ 1) ∧ (1 - (1 : ℝ) / 2 ≤ 1 + 1 / 2) ∧
      IsSingularValue (step7DeformElastic 1 ![2, 1 / 4, 1] 1 (1 / 2) (1 / 2)) (3 / 2) ∧
      (1 - (1 : ℝ) / 2 ≤ 3 / 2 ∧ (3 : ℝ) / 2 ≤ 1 + 1 / 2) := by
  have hu : (1 : Mat3)ᵀ * 1 = 1 := by simp
  have hsv : IsSingularValue (step7DeformElastic 1 ![2, 1 / 4, 1] 1 (1 / 2) (1 / 2)) (3 / 2) := by
    refine ⟨by norm_num, ?_⟩
    rw [step7DeformElastic, dmat3Diagonal,
      det_gram_of_orthogonal 1 1 _ hu hu (3 / 2), Fin.prod_univ_three]
    norm_num [clampSingularValues]
  exact ⟨hu, by norm_num, by norm_num, hsv,
    step7_singularValues_in_range 1 ![2, 1 / 4, 1] 1 (1 / 2) (1 / 2) hu hu
      (by norm_num) (by norm_num) (3 / 2) hsv⟩

/-- C10: step 7 preserves the total deformation gradient through the plastic
clamp: with `F' = (I + Δt·∇v)·F_E·F_P` and SVD output `(u, e, v)` of the
trial elastic gradient (`u`, `v` orthogonal), the updated matrices satisfy
`deformElastic_new · deformPlastic_new = F'` whenever every clamped singular
value is nonzero. -/
theorem step7_deform_product_preserved
    (u : Mat3) (e : Fin 3 → ℝ) (v : Mat3) (θc θs delta_t : ℝ)
    (nabla_v deformElastic deformPlastic : Mat3)
    (hu : uᵀ * u = 1) (hv : vᵀ * v = 1)
    (hne : ∀ i, clampSingularValues e θc θs i ≠ 0) :
    step7DeformElastic u e v θc θs *
        step7DeformPlastic u e v θc θs (step7DeformPrime delta_t nabla_v deformElastic deformPlastic)
      = step7DeformPrime delta_t nabla_v deformElastic deformPlastic := by
  have huu : u * uᵀ = 1 := Matrix.mul_eq_one_comm.mp hu
  have hdd : dmat3Diagonal (clampSingularValues e θc θs) *
      dmat3Diagonal (fun i => 1 / clampSingularValues e θc θs i) = 1 := by
    rw [dmat3Diagonal, dmat3Diagonal, Matrix.diagonal_mul_diagonal]
    have hfun : (fun i => clampSingularValues e θc θs i * (1 / clampSingularValues e θc θs i))
        = fun _ : Fin 3 => (1 : ℝ) :=
      funext fun i => mul_one_div_cancel (hne i)
    rw [hfun]
    exact Matrix.diagonal_one
  rw [step7DeformElastic, step7DeformPlastic]
  simp only [Matrix.mul_assoc]
  rw [← Matrix.mul_assoc vᵀ v, hv, Matrix.one_mul,
    ← Matrix.mul_assoc (dmat3Diagonal _) (dmat3Diagonal _), hdd, Matrix.one_mul,
    ← Matrix.mul_assoc u uᵀ, huu, Matrix.one_mul]

/-- Witness for C10: identity SVD factors, singular values `(1, 1, 1)`,
`θ_c = θ_s = 1/2`, `Δt = 0`, `∇v = 0`, `F_E = F_P = I`. -/
theorem step7_deform_product_preserved_witness :
    ((1 : Mat3)ᵀ * 1 = 1) ∧ (∀ i, clampSingularValues ![1, 1, 1] (1 / 2) (1 / 2) i ≠ 0) ∧
      step7DeformElastic 1 ![1, 1, 1] 1 (1 / 2) (1 / 2) *
          step7DeformPlastic 1 ![1, 1, 1] 1 (1 / 2) (1 / 2) (step7DeformPrime 0 0 1 1)
        = step7DeformPrime 0 0 1 1 := by
  have hu : (1 : Mat3)ᵀ * 1 = 1 := by simp
  have hne : ∀ i, clampSingularValues ![1, 1, 1] (1 / 2) (1 / 2) i ≠ 0 := by
    intro i
    fin_cases i <;> norm_num [clampSingularValues]
  exact ⟨hu, hne,
    step7_deform_product_preserved 1 ![1, 1, 1] 1 (1 / 2) (1 / 2) 0 0 1 1 hu hu hne⟩

lemma truncQ_window_lo : truncQ ((3 / 2 : ℚ) / 1 - 1) = 0 := by
  rw [truncQ, if_pos (by norm_num)]
  rw [show (3 / 2 : ℚ) / 1 - 1 = 1 / 2 by norm_num]
  rw [Int.floor_eq_iff]
  norm_num

lemma truncQ_window_hi : truncQ ((3 / 2 : ℚ) / 1 + 2) = 3 := by
  rw [truncQ, if_pos (by norm_num)]
  rw [show (3 / 2 : ℚ) / 1 + 2 = 7 / 2 by norm_num]
  rw [Int.floor_eq_iff]
  norm_num

/-- C2 is a code bug: on a 3×3×3 grid with `h = 1`, a particle at
`(1.5, 1.5, 1.5)` (within two cells of the upper boundary) makes the step-2
gather visit node `(3, 1, 1)`, which is outside `[0, 2]³`; the loop reads
`gridNode(3, 1, 1)` with no validity guard, an out-of-bounds access the spec
says must be skipped. -/
theorem step2_visits_invalid_node :
    (3, 1, 1) ∈ step2VisitedNodes (3 / 2, 3 / 2, 3 / 2) 1 ∧
      isValidGridNode (3, 3, 3) (3, 1, 1) = false := by
  have key : ∀ a b : ℤ, a = 0 → b = 3 →
      (3, 1, 1) ∈ (intRange a b).flatMap fun gx =>
        (intRange a b).flatMap fun gy => (intRange a b).map fun gz => (gx, gy, gz) := by
    intro a b ha hb
    subst ha
    subst hb
    decide
  exact ⟨key _ _ truncQ_window_lo truncQ_window_hi, by decide⟩

/-- C3 is a code bug: on a one-node grid with mass 1, zero input velocity and
force differential `(1, 0, 0)`, the code's combination (hardcoded
`delta_t = 5e-3`) differs from `v − (β·Δt/m)·δf(v)` at the solver's current
step `Δt = 1e-5` (the `sim-gen-snowball` scene's step). -/
theorem implicitCombine_ignores_solver_delta_t :
    implicitVelocityIntegrationMatrixCombine (fun _ : Unit => 1)
        (fun _ => ![1, 0, 0]) (fun _ => 0) ()
      ≠ specImplicitOperator 1 (1e-5) (fun _ : Unit => 1)
        (fun _ => ![1, 0, 0]) (fun _ => 0) () := by
  intro hcontra
  have h0 := congrFun hcontra 0
  simp only [implicitVelocityIntegrationMatrixCombine, specImplicitOperator,
    implicitHardcodedBeta, implicitHardcodedDeltaT, if_pos (by norm_num : (0 : ℝ) < 1),
    Matrix.cons_val_zero, Pi.zero_apply] at h0
  norm_num at h0

/-- C5: step 3 computes exactly the spec's force field: force initialized to
`(0, 0, −9.8·m_g)`, and for every particle (with hardened `μ`, `λ` and
stress `P = 2μ(F_E − R_E)F_Eᵀ + λ(J_E−1)J_E·I`) the contribution
`−volume0·P·∇w(g, p)` added at every valid node of its 4³ window. -/
theorem gridForce_eq_specGridForce (polarRot : Mat3 → Mat3)
    (nabla_weight : Vec3 → ℤ × ℤ × ℤ → Vec3)
    (mu0 lambda0 hardeningCoefficient h : ℝ) (size : ℤ × ℤ × ℤ)
    {np : ℕ} (particleNodes : Fin np → ParticleNode)
    (massAt : ℤ × ℤ × ℤ → ℝ) (g : ℤ × ℤ × ℤ) :
    gridForce polarRot nabla_weight mu0 lambda0 hardeningCoefficient h size
        particleNodes massAt g
      = specGridForce polarRot nabla_weight mu0 lambda0 hardeningCoefficient h size
          particleNodes massAt g := by
  unfold gridForce specGridForce gridForceInit
  rw [sub_eq_add_neg, ← Finset.sum_neg_distrib]
  congr 1
  apply Finset.sum_congr rfl
  intro i _
  split_ifs with hcond
  · simp only [unweightedForce, specStress, neg_smul, Matrix.neg_mulVec,
      Matrix.smul_mulVec_assoc]
  · rw [neg_zero]

lemma mem_gridFinset (size g : ℤ × ℤ × ℤ) :
    g ∈ gridFinset size ↔ isValidGridNode size g = true := by
  simp only [gridFinset, Finset.mem_product, Finset.mem_Icc, isValidGridNode,
    decide_eq_true_eq]
  omega

lemma truncR_sub_one (x : ℝ) (hx : 1 ≤ ⌊x⌋) : truncR (x - 1) = ⌊x⌋ - 1 := by
  have hx1 : (1 : ℝ) ≤ x := le_trans (by exact_mod_cast hx) (Int.floor_le x)
  rw [truncR, if_pos (by linarith)]
  rw [show (1 : ℝ) = ((1 : ℤ) : ℝ) by norm_num, Int.floor_sub_int]

lemma truncR_add_two (x : ℝ) (hx : 0 ≤ x) : truncR (x + 2) = ⌊x⌋ + 2 := by
  rw [truncR, if_pos (by linarith)]
  rw [show (2 : ℝ) = ((2 : ℤ) : ℝ) by norm_num, Int.floor_add_int]

lemma Icc_four (a : ℤ) : Finset.Icc (a - 1) (a + 2) = {a - 1, a, a + 1, a + 2} := by
  ext k
  simp only [Finset.mem_Icc, Finset.mem_insert, Finset.mem_singleton]
  omega

lemma nSpline_partition (t : ℝ) (h0 : 0 ≤ t) (h1 : t < 1) :
    nSpline (t + 1) + nSpline t + nSpline (t - 1) + nSpline (t - 2) = 1 := by
  rcases eq_or_lt_of_le h0 with heq | ht
  · subst heq
    norm_num [nSpline]
  · have habs1 : |t + 1| = t + 1 := abs_of_nonneg (by linarith)
    have habs0 : |t| = t := abs_of_nonneg h0
    have habsm1 : |t - 1| = 1 - t := by rw [abs_of_nonpos (by linarith)]; ring
    have habsm2 : |t - 2| = 2 - t := by rw [abs_of_nonpos (by linarith)]; ring
    simp only [nSpline, habs1, habs0, habsm1, habsm2]
    rw [if_neg (by linarith), if_pos (by linarith), if_pos h1,
      if_pos (by linarith), if_neg (by linarith), if_pos (by linarith)]
    ring

lemma sum_nSpline_Icc (x : ℝ) :
    ∑ k ∈ Finset.Icc (⌊x⌋ - 1) (⌊x⌋ + 2), nSpline (x - k) = 1 := by
  rw [Icc_four]
  have hd1 : (⌊x⌋ - 1 : ℤ) ∉ ({⌊x⌋, ⌊x⌋ + 1, ⌊x⌋ + 2} : Finset ℤ) := by
    simp only [Finset.mem_insert, Finset.mem_singleton]
    omega
  have hd2 : (⌊x⌋ : ℤ) ∉ ({⌊x⌋ + 1, ⌊x⌋ + 2} : Finset ℤ) := by
    simp only [Finset.mem_insert, Finset.mem_singleton]
    omega
  have hd3 : (⌊x⌋ + 1 : ℤ) ∉ ({⌊x⌋ + 2} : Finset ℤ) := by
    simp only [Finset.mem_singleton]
    omega
  rw [Finset.sum_insert hd1, Finset.sum_insert hd2, Finset.sum_insert hd3,
    Finset.sum_singleton]
  have hx := Int.floor_add_fract x
  have e1 : x - ((⌊x⌋ - 1 : ℤ) : ℝ) = Int.fract x + 1 := by push_cast; linarith
  have e2 : x - ((⌊x⌋ : ℤ) : ℝ) = Int.fract x := by linarith
  have e3 : x - ((⌊x⌋ + 1 : ℤ) : ℝ) = Int.fract x - 1 := by push_cast; linarith
  have e4 : x - ((⌊x⌋ + 2 : ℤ) : ℝ) = Int.fract x - 2 := by push_cast; linarith
  rw [e1, e2, e3, e4]
  linarith [nSpline_partition (Int.fract x) (Int.fract_nonneg x) (Int.fract_lt_one x)]

lemma sum_triple_mul (s1 s2 s3 : Finset ℤ) (A B C : ℤ → ℝ) :
    (∑ x ∈ s1, ∑ y ∈ s2, ∑ z ∈ s3, A x * B y * C z)
      = (∑ x ∈ s1, A x) * (∑ y ∈ s2, B y) * (∑ z ∈ s3, C z) := by
  calc ∑ x ∈ s1, ∑ y ∈ s2, ∑ z ∈ s3, A x * B y * C z
      = ∑ x ∈ s1, ∑ y ∈ s2, (A x * B y) * ∑ z ∈ s3, C z := by
        apply Finset.sum_congr rfl
        intro x _
        apply Finset.sum_congr rfl
        intro y _
        rw [← Finset.mul_sum]
    _ = ∑ x ∈ s1, (A x * ∑ y ∈ s2, B y) * ∑ z ∈ s3, C z := by
        apply Finset.sum_congr rfl
        intro x _
        rw [← Finset.sum_mul, ← Finset.mul_sum]
    _ = (∑ x ∈ s1, A x) * (∑ y ∈ s2, B y) * (∑ z ∈ s3, C z) := by
        rw [← Finset.sum_mul, ← Finset.sum_mul]

lemma sum_weight_window (h : ℝ) (hh : 0 < h) (p : Vec3) :
    ∑ g ∈ (Finset.Icc (⌊p 0 / h⌋ - 1) (⌊p 0 / h⌋ + 2) ×ˢ
        (Finset.Icc (⌊p 1 / h⌋ - 1) (⌊p 1 / h⌋ + 2) ×ˢ
          Finset.Icc (⌊p 2 / h⌋ - 1) (⌊p 2 / h⌋ + 2))),
      weight h p g = 1 := by
  have harg : ∀ (c : ℝ) (k : ℤ), (c - k * h) / h = c / h - k := by
    intro c k
    rw [sub_div, mul_div_assoc, div_self hh.ne', mul_one]
  have hw : ∀ (gx gy gz : ℤ), weight h p (gx, gy, gz)
      = nSpline (p 0 / h - gx) * nSpline (p 1 / h - gy) * nSpline (p 2 / h - gz) := by
    intro gx gy gz
    unfold weight
    rw [harg, harg, harg]
  simp only [Finset.sum_product, hw]
  rw [sum_triple_mul, sum_nSpline_Icc, sum_nSpline_Icc, sum_nSpline_Icc]
  norm_num

/-- C9: after the P2G rasterization of step 1, the sum of all grid-node
masses equals the sum of all particle masses exactly (over the reals),
provided every particle's 4³ interpolation window
`⌊p/h⌋−1 … ⌊p/h⌋+2` lies entirely inside `[0, N−1]³`.  The statement is
parametric in the per-tick particle state, so it holds after every tick. -/
theorem step1_mass_conservation
    (h : ℝ) (size : ℤ × ℤ × ℤ) {np : ℕ} (particleNodes : Fin np → ParticleNode)
    (hh : 0 < h)
    (hin : ∀ i : Fin np,
      (1 ≤ ⌊(particleNodes i).position 0 / h⌋ ∧
        ⌊(particleNodes i).position 0 / h⌋ + 2 ≤ size.1 - 1) ∧
      (1 ≤ ⌊(particleNodes i).position 1 / h⌋ ∧
        ⌊(particleNodes i).position 1 / h⌋ + 2 ≤ size.2.1 - 1) ∧
      (1 ≤ ⌊(particleNodes i).position 2 / h⌋ ∧
        ⌊(particleNodes i).position 2 / h⌋ + 2 ≤ size.2.2 - 1)) :
    totalGridMass h size particleNodes = ∑ i : Fin np, (particleNodes i).mass := by
  unfold totalGridMass gridMass
  rw [Finset.sum_comm]
  apply Finset.sum_congr rfl
  intro i _
  obtain ⟨⟨h0a, h0b⟩, ⟨h1a, h1b⟩, ⟨h2a, h2b⟩⟩ := hin i
  have hstep1 : ∀ g ∈ gridFinset size,
      (if isValidGridNode size g = true ∧ windowNode h (particleNodes i).position g then
        (particleNodes i).mass * weight h (particleNodes i).position g
      else 0)
      = if windowNode h (particleNodes i).position g then
          (particleNodes i).mass * weight h (particleNodes i).position g
        else 0 := by
    intro g hg
    simp [(mem_gridFinset size g).mp hg]
  rw [Finset.sum_congr rfl hstep1, ← Finset.sum_filter]
  have hfloor0 : (0 : ℝ) ≤ (particleNodes i).position 0 / h := by
    have := Int.floor_le ((particleNodes i).position 0 / h)
    have : (1 : ℝ) ≤ ((⌊(particleNodes i).position 0 / h⌋ : ℤ) : ℝ) := by exact_mod_cast h0a
    linarith [Int.floor_le ((particleNodes i).position 0 / h)]
  have hfloor1 : (0 : ℝ) ≤ (particleNodes i).position 1 / h := by
    have : (1 : ℝ) ≤ ((⌊(particleNodes i).position 1 / h⌋ : ℤ) : ℝ) := by exact_mod_cast h1a
    linarith [Int.floor_le ((particleNodes i).position 1 / h)]
  have hfloor2 : (0 : ℝ) ≤ (particleNodes i).position 2 / h := by
    have : (1 : ℝ) ≤ ((⌊(particleNodes i).position 2 / h⌋ : ℤ) : ℝ) := by exact_mod_cast h2a
    linarith [Int.floor_le ((particleNodes i).position 2 / h)]
  have hfilter : (gridFinset size).filter
        (fun g => windowNode h (particleNodes i).position g)
      = Finset.Icc (⌊(particleNodes i).position 0 / h⌋ - 1)
          (⌊(particleNodes i).position 0 / h⌋ + 2) ×ˢ
        (Finset.Icc (⌊(particleNodes i).position 1 / h⌋ - 1)
          (⌊(particleNodes i).position 1 / h⌋ + 2) ×ˢ
          Finset.Icc (⌊(particleNodes i).position 2 / h⌋ - 1)
            (⌊(particleNodes i).position 2 / h⌋ + 2)) := by
    ext g
    simp only [Finset.mem_filter, gridFinset, Finset.mem_product, Finset.mem_Icc,
      windowNode, truncR_sub_one _ h0a, truncR_sub_one _ h1a, truncR_sub_one _ h2a,
      truncR_add_two _ hfloor0, truncR_add_two _ hfloor1, truncR_add_two _ hfloor2]
    omega
  rw [hfilter, ← Finset.mul_sum, sum_weight_window h hh, mul_one]

/-- Witness for C9 at the concrete one-particle scene. -/
theorem step1_mass_conservation_witness :
    (0 : ℝ) < 1 ∧
      totalGridMass 1 ((4 : ℤ), (4 : ℤ), (4 : ℤ)) (fun _ : Fin 1 => witnessParticle)
        = ∑ i : Fin 1, ((fun _ : Fin 1 => witnessParticle) i).mass := by
  have hfl : ⌊(3 / 2 : ℝ)⌋ = 1 := by
    rw [Int.floor_eq_iff]
    norm_num
  refine ⟨by norm_num, step1_mass_conservation 1 _ _ (by norm_num) ?_⟩
  intro i
  refine ⟨⟨?_, ?_⟩, ⟨?_, ?_⟩, ⟨?_, ?_⟩⟩ <;> simp [witnessParticle, hfl]

end SnowVerify
